import Mathlib

/-!
Verification development for the PPSSPP deferred-draw engine and software
rasterizer core (GPU/Software/Rasterizer.cpp, GPU/Vulkan/DrawEngineVulkan.cpp).

The C++ code is shallowly embedded: machine integers become Nat/Int with
explicit wrapping where the code relies on it, C float arithmetic is given
exact rational semantics, and the framebuffer / depth buffer become explicit
functions from pixel coordinates to values.  External collaborators that are
not part of this repository (index generator, vertex decoder, ge_constants
values) are either taken as parameters or modelled from the specification and
marked as such.
-/

namespace Rasterizer

/-- Depth-compare functions, in the order of the GE_COMP_* constants used by
`DepthTestPassed` (Rasterizer.cpp lines 117-141). -/
inductive GeComparison where
  | never
  | always
  | equal
  | notequal
  | less
  | lequal
  | greater
  | gequal
deriving DecidableEq, Repr

/-- The GPU state fields read by `DrawTriangle` and `DepthTestPassed`
(gstate accessors in Rasterizer.cpp). -/
structure GPUState where
  modeClear : Bool
  modeThrough : Bool
  depthTestEnabled : Bool
  depthWriteEnabled : Bool
  /-- gstate.clearmode & 0x40, the clear-mode depth-write bit (line 180). -/
  clearModeDepthWriteBit : Bool
  depthTestFunc : GeComparison
  /-- (gstate.shademodel & 1) == GE_SHADE_GOURAUD (line 187). -/
  shadeGouraud : Bool
  textureMapEnabled : Bool
  scissorX1 : ℤ
  scissorY1 : ℤ
  scissorX2 : ℤ
  scissorY2 : ℤ
deriving DecidableEq, Repr

/-- One element of the `VertexData vertexdata[3]` array consumed by
`DrawTriangle`: integer screen position with depth, clip-space w, texture
coordinates, and the four 8-bit color channels. -/
structure VertexData where
  x : ℤ
  y : ℤ
  z : ℚ
  clipw : ℚ
  s : ℚ
  t : ℚ
  r : ℕ
  g : ℕ
  b : ℕ
  a : ℕ
deriving DecidableEq, Repr

/-- orient2d (Rasterizer.cpp lines 28-31):
(v1.x-v0.x)*(v2.y-v0.y) - (v1.y-v0.y)*(v2.x-v0.x). -/
def orient2d (v0 v1 v2 : ℤ × ℤ) : ℤ :=
  (v1.1 - v0.1) * (v2.2 - v0.2) - (v1.2 - v0.2) * (v2.1 - v0.1)

/-- Truncation toward zero, the semantics of a C cast from a (here: exact
rational) floating value to an integer type. -/
def ratTrunc (q : ℚ) : ℤ :=
  q.num.tdiv q.den

/-- Wrap an exact value to u16, the `(u16)` cast on line 174. -/
def toU16 (q : ℚ) : ℕ :=
  ((ratTrunc q).emod 65536).toNat

/-- Wrap a signed value to u32, the assignment of the Gouraud int sum to the
u32 `color` variable (lines 188-191). -/
def toU32 (i : ℤ) : ℕ :=
  (i.emod 4294967296).toNat

/-- The perspective-correction denominator (line 168):
1/v0.w * w0 + 1/v1.w * w1 + 1/v2.w * w2. -/
def perspDen (w0 w1 w2 : ℤ) (c0 c1 c2 : ℚ) : ℚ :=
  1 / c0 * (w0 : ℚ) + 1 / c1 * (w1 : ℚ) + 1 / c2 * (w2 : ℚ)

/-- The perspective-correct attribute interpolation used for depth (line 174),
texture coordinates (lines 184-185) and every Gouraud color channel
(lines 188-191): (a0*w0/c0 + a1*w1/c1 + a2*w2/c2) / den. -/
def interpolate (a0 a1 a2 : ℚ) (w0 w1 w2 : ℤ) (c0 c1 c2 : ℚ) : ℚ :=
  (a0 * (w0 : ℚ) / c0 + a1 * (w1 : ℚ) / c1 + a2 * (w2 : ℚ) / c2) /
    perspDen w0 w1 w2 c0 c1 c2

/-- Interpolated depth, wrapped to u16 (line 174). -/
def pixelZ (v0 v1 v2 : VertexData) (w0 w1 w2 : ℤ) : ℕ :=
  toU16 (interpolate v0.z v1.z v2.z w0 w1 w2 v0.clipw v1.clipw v2.clipw)

/-- Interpolated s texture coordinate (line 184). -/
def sCoord (v0 v1 v2 : VertexData) (w0 w1 w2 : ℤ) : ℚ :=
  interpolate v0.s v1.s v2.s w0 w1 w2 v0.clipw v1.clipw v2.clipw

/-- Interpolated t texture coordinate (line 185). -/
def tCoord (v0 v1 v2 : VertexData) (w0 w1 w2 : ℤ) : ℚ :=
  interpolate v0.t v1.t v2.t w0 w1 w2 v0.clipw v1.clipw v2.clipw

/-- Gouraud base color (lines 188-191): each channel interpolated, cast to
int, packed as r + g*256 + b*65536 + a*16777216 and stored into the u32. -/
def gouraudColor (v0 v1 v2 : VertexData) (w0 w1 w2 : ℤ) : ℕ :=
  toU32
    (ratTrunc (interpolate (v0.r : ℚ) (v1.r : ℚ) (v2.r : ℚ) w0 w1 w2
        v0.clipw v1.clipw v2.clipw) +
     ratTrunc (interpolate (v0.g : ℚ) (v1.g : ℚ) (v2.g : ℚ) w0 w1 w2
        v0.clipw v1.clipw v2.clipw) * 256 +
     ratTrunc (interpolate (v0.b : ℚ) (v1.b : ℚ) (v2.b : ℚ) w0 w1 w2
        v0.clipw v1.clipw v2.clipw) * 65536 +
     ratTrunc (interpolate (v0.a : ℚ) (v1.a : ℚ) (v2.a : ℚ) w0 w1 w2
        v0.clipw v1.clipw v2.clipw) * 16777216)

/-- Flat base color (line 193): vertex 2's channels packed
r | g<<8 | b<<16 | a<<24. -/
def flatColor (v2 : VertexData) : ℕ :=
  v2.r ||| (v2.g <<< 8) ||| (v2.b <<< 16) ||| (v2.a <<< 24)

/-- The base color before texturing (lines 186-193). -/
def baseColor (gs : GPUState) (v0 v1 v2 : VertexData) (w0 w1 w2 : ℤ) : ℕ :=
  if gs.shadeGouraud then gouraudColor v0 v1 v2 w0 w1 w2 else flatColor v2

/-- The final pixel color (lines 186-197): the base color, with the texture
sample bitwise-ORed in when texture mapping is enabled outside clear mode
(`color |= SampleNearest(0, s, t)`). -/
def finalColor (gs : GPUState) (v0 v1 v2 : VertexData) (sample : ℚ → ℚ → ℕ)
    (w0 w1 w2 : ℤ) : ℕ :=
  let base := baseColor gs v0 v1 v2 w0 w1 w2
  if gs.textureMapEnabled && !gs.modeClear then
    base ||| sample (sCoord v0 v1 v2 w0 w1 w2) (tCoord v0 v1 v2 w0 w1 w2)
  else
    base

/-- DepthTestPassed (Rasterizer.cpp lines 110-142): unconditionally true in
clear mode, otherwise the eight-way switch on the depth-test function. -/
def depthTestPassed (modeClear : Bool) (func : GeComparison)
    (z referenceZ : ℕ) : Bool :=
  if modeClear then
    true
  else
    match func with
    | .never => false
    | .always => true
    | .equal => z == referenceZ
    | .notequal => z != referenceZ
    | .less => decide (z < referenceZ)
    | .lequal => decide (z ≤ referenceZ)
    | .greater => decide (z > referenceZ)
    | .gequal => decide (z ≥ referenceZ)

/-- Outcome of the per-pixel body of the rasterization loop
(Rasterizer.cpp lines 161-200). -/
inductive PixelResult where
  /-- One of the three edge functions is negative: nothing happens. -/
  | notCovered
  /-- The depth test ran and failed: `continue`, no writes at all. -/
  | depthRejected
  /-- The pixel is rendered: an optional depth write and a color write. -/
  | drawn (depthWrite : Option ℕ) (color : ℕ)
deriving DecidableEq, Repr

/-- The body of the rasterization loop for one pixel (px, py), given the
current depth-buffer value at that pixel (lines 161-199). -/
def processPixel (gs : GPUState) (v0 v1 v2 : VertexData)
    (sample : ℚ → ℚ → ℕ) (px py : ℤ) (bufZ : ℕ) : PixelResult :=
  let w0 := orient2d (v1.x, v1.y) (v2.x, v2.y) (px, py)
  let w1 := orient2d (v2.x, v2.y) (v0.x, v0.y) (px, py)
  let w2 := orient2d (v0.x, v0.y) (v1.x, v1.y) (px, py)
  if 0 ≤ w0 ∧ 0 ≤ w1 ∧ 0 ≤ w2 then
    if gs.depthTestEnabled && !gs.modeThrough || gs.modeClear then
      let z := pixelZ v0 v1 v2 w0 w1 w2
      if depthTestPassed gs.modeClear gs.depthTestFunc z bufZ then
        .drawn
          (if gs.depthWriteEnabled || gs.clearModeDepthWriteBit then some z
           else none)
          (finalColor gs v0 v1 v2 sample w0 w1 w2)
      else
        .depthRejected
    else
      .drawn none (finalColor gs v0 v1 v2 sample w0 w1 w2)
  else
    .notCovered

/-- The color and depth buffers touched by `SetPixelColor` / `SetPixelDepth`,
as functions from pixel coordinates to stored values. -/
structure FrameBuffers where
  color : ℤ × ℤ → ℕ
  depth : ℤ × ℤ → ℕ

/-- Applying one pixel of the loop to the buffers, together with a trace of
the pixels at which `SetPixelColor` was called. -/
def rasterStep (gs : GPUState) (v0 v1 v2 : VertexData) (sample : ℚ → ℚ → ℕ)
    (acc : FrameBuffers × List (ℤ × ℤ)) (p : ℤ × ℤ) :
    FrameBuffers × List (ℤ × ℤ) :=
  match processPixel gs v0 v1 v2 sample p.1 p.2 (acc.1.depth p) with
  | .drawn dw c =>
      (⟨fun q => if q = p then c else acc.1.color q,
        match dw with
        | some z => fun q => if q = p then z else acc.1.depth q
        | none => acc.1.depth⟩,
       acc.2 ++ [p])
  | _ => acc

/-- minX after the scissor clamp (lines 148, 153). -/
def rasterMinX (gs : GPUState) (v0 v1 v2 : VertexData) : ℤ :=
  max (min (min v0.x v1.x) v2.x) gs.scissorX1

/-- minY after the scissor clamp (lines 149, 155). -/
def rasterMinY (gs : GPUState) (v0 v1 v2 : VertexData) : ℤ :=
  max (min (min v0.y v1.y) v2.y) gs.scissorY1

/-- maxX after the scissor clamp (lines 150, 154). -/
def rasterMaxX (gs : GPUState) (v0 v1 v2 : VertexData) : ℤ :=
  min (max (max v0.x v1.x) v2.x) gs.scissorX2

/-- maxY after the scissor clamp (lines 151, 156). -/
def rasterMaxY (gs : GPUState) (v0 v1 v2 : VertexData) : ℤ :=
  min (max (max v0.y v1.y) v2.y) gs.scissorY2

/-- The inclusive integer range [a, b] as a list. -/
def intRange (a b : ℤ) : List ℤ :=
  (List.range (b + 1 - a).toNat).map (fun (i : ℕ) => a + (i : ℤ))

/-- The pixels visited by the double loop (lines 159-160): y outer from minY
to maxY, x inner from minX to maxX, both inclusive. -/
def pixelList (gs : GPUState) (v0 v1 v2 : VertexData) : List (ℤ × ℤ) :=
  (intRange (rasterMinY gs v0 v1 v2) (rasterMaxY gs v0 v1 v2)).flatMap
    fun y =>
      (intRange (rasterMinX gs v0 v1 v2) (rasterMaxX gs v0 v1 v2)).map
        fun x => (x, y)

/-- DrawTriangle (Rasterizer.cpp lines 144-203): fold the per-pixel body over
the scissored bounding box, returning the updated buffers and the trace of
color-written pixels. -/
def drawTriangle (gs : GPUState) (v0 v1 v2 : VertexData)
    (sample : ℚ → ℚ → ℕ) (fb : FrameBuffers) :
    FrameBuffers × List (ℤ × ℤ) :=
  (pixelList gs v0 v1 v2).foldl (rasterStep gs v0 v1 v2 sample) (fb, [])

/-- The GE_TFMT_5551 branch of SampleNearest (Rasterizer.cpp lines 59-69),
as a function of the two bytes of the texel.  Note that the blue channel is
computed from `(*srcptr+1) & 0x7C` — the first byte plus one — because the
source lacks the parentheses that would dereference the second byte. -/
def sampleNearest5551 (byte0 byte1 : ℕ) : ℕ :=
  let r5 := byte0 &&& 0x1F
  let g5 := ((byte0 &&& 0xE0) >>> 5) ||| ((byte1 &&& 0x3) <<< 3)
  let b5 := ((byte0 + 1) &&& 0x7C) >>> 2
  let a1 := byte1 >>> 7
  let r := (r5 <<< 3) ||| (r5 >>> 2)
  let g := (g5 <<< 3) ||| (g5 >>> 2)
  let b := (b5 <<< 3) ||| (b5 >>> 2)
  let a := if a1 ≠ 0 then 0xFF else 0
  (r <<< 24) ||| (g <<< 16) ||| (b <<< 8) ||| a

/-- Modelled from the spec: the 5-5-5-1 unpack rule of §4.5 — the three 5-bit
R, G, B fields of the 16-bit texel replicated via x<<3 | x>>2, with the 1-bit
alpha expanded to 0x00/0xFF.  Stated for comparison with `sampleNearest5551`;
the blue field occupies bits 2-6 of the second byte. -/
def sampleNearest5551Spec (byte0 byte1 : ℕ) : ℕ :=
  let r5 := byte0 &&& 0x1F
  let g5 := ((byte0 &&& 0xE0) >>> 5) ||| ((byte1 &&& 0x3) <<< 3)
  let b5 := (byte1 &&& 0x7C) >>> 2
  let a1 := byte1 >>> 7
  let r := (r5 <<< 3) ||| (r5 >>> 2)
  let g := (g5 <<< 3) ||| (g5 >>> 2)
  let b := (b5 <<< 3) ||| (b5 >>> 2)
  let a := if a1 ≠ 0 then 0xFF else 0
  (r <<< 24) ||| (g <<< 16) ||| (b <<< 8) ||| a

end Rasterizer

namespace DrawEngine

/-- Modelled from the spec: the fixed system-wide capacity of the deferred
draw-call list (§3, §8).  The constant is declared outside this repository's
sources; the upstream value 128 is used, and no proof depends on more than
its positivity. -/
def maxDeferredDrawCalls : ℕ := 128

/-- Modelled from the spec: the fixed system-wide capacity of the canonical
decoded-vertex buffer (§3, §8).  The constant is declared outside this
repository's sources; the upstream value 65536 is used. -/
def vertexBufferMax : ℕ := 65536

/-- Modelled from the spec: the rectangle primitive's number in the
points/lines/line-strip/triangles/strip/fan/rectangles order of §3. -/
def gePrimRectangles : ℕ := 6

/-- Modelled from the spec: the "repeat previous primitive" sentinel of
§4.1 step 2, the value following the seven real primitive kinds. -/
def gePrimKeepPrevious : ℕ := 7

/-- Modelled from the spec: bit position of the two index-width bits in the
vertex-format bitfield (§6: index width none/8-bit/16-bit). -/
def geVtypeIdxShift : ℕ := 11

/-- Modelled from the spec: mask of the two index-width bits. -/
def geVtypeIdxMask : ℕ := 0x1800

/-- Modelled from the spec: mask of the skinning-weight bits of the
vertex-format bitfield (§4.1 step 7). -/
def geVtypeWeightMask : ℕ := 0x600

/-- One DeferredDrawCall (DrawEngineVulkan.cpp lines 145-170).  The source
vertex/index pointers become an abstract reference and the referenced index
data; `indexType` is the two index-width bits of the vertex format shifted
down (0 = none, 1 = 8-bit, 2 = 16-bit). -/
structure DeferredDrawCall where
  verts : ℕ
  inds : Option (List ℕ)
  vertType : ℕ
  indexType : ℕ
  prim : ℕ
  vertexCount : ℕ
  indexLowerBound : ℤ
  indexUpperBound : ℤ
deriving DecidableEq, Repr

/-- The batch state of DrawEngineVulkan that SubmitPrim / DecodeVertsStep /
DoFlush mutate.  `drawCalls` carries the accepted calls (its length is the
`numDrawCalls` counter); `translatedIndices` is the stream of indices the
index generator has received from TranslatePrim.  The rolling `dcid_`
fingerprint (lines 153-163) is change-detection only and is not modelled. -/
structure EngineState where
  drawCalls : List DeferredDrawCall
  vertexCountInDrawCalls : ℕ
  prevPrim : Option ℕ
  decodeCounter : ℕ
  decodedVerts : ℤ
  translatedIndices : List ℤ
deriving DecidableEq, Repr

/-- The state after construction and after every flush. -/
def initState : EngineState :=
  ⟨[], 0, none, 0, 0, []⟩

/-- The batch-state effect of a flush (DoFlush lines 435-441: reset the index
generator, decodedVerts_, numDrawCalls, vertexCountInDrawCalls,
decodeCounter_ and prevPrim_).  The inline Flush wrapper's numDrawCalls == 0
early-out yields the same state, the reset being idempotent. -/
def flushReset (_ : EngineState) : EngineState :=
  initState

/-- Modelled from the spec: GetIndexBounds (declared outside this
repository's sources) scans the first `count` indices and returns their
minimum and maximum (§4.1 step 5: compute the index range by scanning the
index buffer). -/
def getIndexBounds (l : List ℕ) (count : ℕ) : ℤ × ℤ :=
  match (l.take count).map (fun (i : ℕ) => (i : ℤ)) with
  | [] => (0, 0)
  | x :: xs => (xs.foldl min x, xs.foldl max x)

/-- The look-ahead run of DecodeVertsStep (lines 225-234) past the current
call: the longest block of immediately following deferred calls whose verts
reference equals that of the current call — the loop breaks at the first
call whose verts reference differs. -/
def mergeExtra (st : EngineState) (dc : DeferredDrawCall) :
    List DeferredDrawCall :=
  (st.drawCalls.drop (st.decodeCounter + 1)).takeWhile
    fun c => c.verts == dc.verts

/-- The full merged run: the current call followed by the look-ahead run. -/
def mergeRun (st : EngineState) (dc : DeferredDrawCall) :
    List DeferredDrawCall :=
  dc :: mergeExtra st dc

/-- The widened lower bound accumulated by the look-ahead loop (line 231):
the minimum of the current call's lower bound and those of the run. -/
def mergedLower (st : EngineState) (dc : DeferredDrawCall) : ℤ :=
  (mergeExtra st dc).foldl (fun m c => min m c.indexLowerBound)
    dc.indexLowerBound

/-- The widened upper bound accumulated by the look-ahead loop (line 232). -/
def mergedUpper (st : EngineState) (dc : DeferredDrawCall) : ℤ :=
  (mergeExtra st dc).foldl (fun m c => max m c.indexUpperBound)
    dc.indexUpperBound

/-- The indices handed to the index generator by the translation loop
(lines 236-248): for every call of the merged run, its first vertexCount
raw indices offset by the widened lower bound. -/
def translatedRun (st : EngineState) (dc : DeferredDrawCall) : List ℤ :=
  (mergeRun st dc).flatMap fun c =>
    ((c.inds.getD []).take c.vertexCount).map
      fun (idx : ℕ) => (idx : ℤ) - mergedLower st dc

/-- DecodeVertsStep (DrawEngineVulkan.cpp lines 201-266).  The write of
decoded vertex bytes into the scratch buffer is outside the model; the
decoded-vertex counter, the decode cursor and the indices handed to the
index generator are tracked exactly.  In the indexed path the look-ahead
(mergeExtra / mergedLower / mergedUpper) widens the bounds over calls
sharing the same verts reference; the translation switch runs for 8-bit and
16-bit index types; the overflow guard (lines 253-255) returns before the
counter and the cursor advance; otherwise the cursor is set to the last
merged call (line 264: decodeCounter_ = lastMatch). -/
def decodeVertsStep (st : EngineState) : EngineState :=
  match st.drawCalls[st.decodeCounter]? with
  | none => st
  | some dc =>
    if dc.indexType = 0 then
      { st with
        decodedVerts :=
          st.decodedVerts + (dc.indexUpperBound - dc.indexLowerBound + 1) }
    else
      let newTranslated :=
        if dc.indexType = 1 ∨ dc.indexType = 2 then
          st.translatedIndices ++ translatedRun st dc
        else
          st.translatedIndices
      let mergedCount := mergedUpper st dc - mergedLower st dc + 1
      if (vertexBufferMax : ℤ) < st.decodedVerts + mergedCount then
        { st with translatedIndices := newTranslated }
      else
        { st with
          translatedIndices := newTranslated,
          decodedVerts := st.decodedVerts + mergedCount,
          decodeCounter := st.decodeCounter + (mergeExtra st dc).length }

/-- The entry condition of SubmitPrim (line 128) that forces a flush before
the call is considered: primitive incompatibility, deferred-list capacity,
or vertex-buffer capacity. -/
def entryFlushNeeded (primCompatible : Option ℕ → ℕ → Bool)
    (st : EngineState) (prim0 vertexCount : ℕ) : Bool :=
  !primCompatible st.prevPrim prim0 ||
    decide (maxDeferredDrawCalls ≤ st.drawCalls.length) ||
    decide (vertexBufferMax < st.vertexCountInDrawCalls + vertexCount)

/-- The state after the entry check of SubmitPrim (lines 128-129): flushed
when the entry condition holds, untouched otherwise. -/
def entryState (primCompatible : Option ℕ → ℕ → Bool) (st : EngineState)
    (prim0 vertexCount : ℕ) : EngineState :=
  if entryFlushNeeded primCompatible st prim0 vertexCount then flushReset st
  else st

/-- The primitive after resolving the "keep previous" sentinel against the
post-entry state (lines 132-136), defaulting to points. -/
def resolvedPrim (primCompatible : Option ℕ → ℕ → Bool) (st : EngineState)
    (prim0 vertexCount : ℕ) : ℕ :=
  if prim0 = gePrimKeepPrevious then
    (entryState primCompatible st prim0 vertexCount).prevPrim.getD 0
  else prim0

/-- The DeferredDrawCall record filled in by SubmitPrim (lines 145-170):
the index range comes from GetIndexBounds when index data is present and
defaults to [0, vertexCount-1] otherwise. -/
def mkDrawCall (vertsRef : ℕ) (inds : Option (List ℕ))
    (vertType prim vertexCount : ℕ) : DeferredDrawCall :=
  { verts := vertsRef
    inds := inds
    vertType := vertType
    indexType := (vertType &&& geVtypeIdxMask) >>> geVtypeIdxShift
    prim := prim
    vertexCount := vertexCount
    indexLowerBound :=
      match inds with
      | some l => (getIndexBounds l vertexCount).1
      | none => 0
    indexUpperBound :=
      match inds with
      | some l => (getIndexBounds l vertexCount).2
      | none => (vertexCount : ℤ) - 1 }

/-- Appending the accepted call and advancing the two batch counters
(lines 145-173). -/
def appendDrawCall (st2 : EngineState) (vertsRef : ℕ)
    (inds : Option (List ℕ)) (vertType prim vertexCount : ℕ) : EngineState :=
  { st2 with
    drawCalls := st2.drawCalls ++ [mkDrawCall vertsRef inds vertType prim
      vertexCount]
    vertexCountInDrawCalls := st2.vertexCountInDrawCalls + vertexCount }

/-- The eager software-skinning decode (lines 175-178): one DecodeVertsStep
plus the decode-counter increment, when the config flag is on and the
format carries weights. -/
def skinningStep (softwareSkinning : Bool) (vertType : ℕ)
    (st3 : EngineState) : EngineState :=
  if softwareSkinning ∧ vertType &&& geVtypeWeightMask ≠ 0 then
    let s := decodeVertsStep st3
    { s with decodeCounter := s.decodeCounter + 1 }
  else st3

/-- The render-target aliasing check (lines 180-186): a rectangle whose
texture address equals the framebuffer address forces a flush unless the
slow-framebuffer-effects safety is disabled. -/
def rectAliasFlush (prim texAddr fbAddr : ℕ)
    (disableSlowFramebufEffects : Bool) (st4 : EngineState) : EngineState :=
  if prim = gePrimRectangles ∧
      texAddr &&& 0x3FFFFFFF = fbAddr &&& 0x3FFFFFFF ∧
      ¬disableSlowFramebufEffects then
    flushReset st4
  else st4

/-- SubmitPrim (DrawEngineVulkan.cpp lines 127-187).  External collaborators
are parameters: `primCompatible` is indexGen.PrimCompatible, `vertexSize`
gives the per-vertex stride of the decoder selected for an effective vertex
format, `uvGenMode`, `softwareSkinning`, `disableSlowFramebufEffects`,
`texAddr` and `fbAddr` are the global state the function reads.  The result
pairs the new engine state with the value stored through `bytesRead`. -/
def submit (primCompatible : Option ℕ → ℕ → Bool) (vertexSize : ℕ → ℕ)
    (uvGenMode : ℕ) (softwareSkinning : Bool)
    (disableSlowFramebufEffects : Bool) (texAddr fbAddr : ℕ)
    (st : EngineState) (vertsRef : ℕ) (inds : Option (List ℕ))
    (prim0 vertexCount vertType : ℕ) : EngineState × ℕ :=
  let st1 := entryState primCompatible st prim0 vertexCount
  let prim :=
    if prim0 = gePrimKeepPrevious then st1.prevPrim.getD 0 else prim0
  let st2 :=
    if prim0 = gePrimKeepPrevious then st1
    else { st1 with prevPrim := some prim0 }
  let bytesRead := vertexCount * vertexSize ((vertType &&& 0xFFFFFF) |||
    (uvGenMode <<< 24))
  if (vertexCount < 2 ∧ 0 < prim) ∨
      (vertexCount < 3 ∧ 2 < prim ∧ prim ≠ gePrimRectangles) then
    (st2, bytesRead)
  else
    (rectAliasFlush prim texAddr fbAddr disableSlowFramebufEffects
      (skinningStep softwareSkinning vertType
        (appendDrawCall st2 vertsRef inds vertType prim vertexCount)),
     bytesRead)

/-- The arguments of one Submit call, for reasoning about call sequences. -/
structure SubmitArgs where
  vertsRef : ℕ
  inds : Option (List ℕ)
  prim0 : ℕ
  vertexCount : ℕ
  vertType : ℕ
deriving DecidableEq, Repr

/-- The state transition of one Submit call. -/
def submitStep (primCompatible : Option ℕ → ℕ → Bool) (vertexSize : ℕ → ℕ)
    (uvGenMode : ℕ) (softwareSkinning : Bool)
    (disableSlowFramebufEffects : Bool) (texAddr fbAddr : ℕ)
    (st : EngineState) (a : SubmitArgs) : EngineState :=
  (submit primCompatible vertexSize uvGenMode softwareSkinning
    disableSlowFramebufEffects texAddr fbAddr st a.vertsRef a.inds a.prim0
    a.vertexCount a.vertType).1

/-- The capacity invariant of §8: the accepted-call count stays within the
deferred-list capacity and the accepted vertex total within the
vertex-buffer capacity. -/
def capOK (st : EngineState) : Prop :=
  st.drawCalls.length ≤ maxDeferredDrawCalls ∧
    st.vertexCountInDrawCalls ≤ vertexBufferMax

instance (st : EngineState) : Decidable (capOK st) := by
  unfold capOK; infer_instance

end DrawEngine

namespace Rasterizer

/-- The edge-function coverage condition of line 167: all three edge
functions at the pixel are nonnegative. -/
def coveredAt (v0 v1 v2 : VertexData) (px py : ℤ) : Prop :=
  0 ≤ orient2d (v1.x, v1.y) (v2.x, v2.y) (px, py) ∧
    0 ≤ orient2d (v2.x, v2.y) (v0.x, v0.y) (px, py) ∧
    0 ≤ orient2d (v0.x, v0.y) (v1.x, v1.y) (px, py)

instance (v0 v1 v2 : VertexData) (px py : ℤ) :
    Decidable (coveredAt v0 v1 v2 px py) := by
  unfold coveredAt; infer_instance

theorem mem_intRange {a lo hi : ℤ} :
    a ∈ intRange lo hi ↔ lo ≤ a ∧ a ≤ hi := by
  simp only [intRange, List.mem_map, List.mem_range]
  constructor
  · rintro ⟨i, hlt, rfl⟩
    omega
  · intro h
    exact ⟨(a - lo).toNat, by omega, by omega⟩

theorem mem_pixelList {gs : GPUState} {v0 v1 v2 : VertexData} {px py : ℤ} :
    (px, py) ∈ pixelList gs v0 v1 v2 ↔
      rasterMinX gs v0 v1 v2 ≤ px ∧ px ≤ rasterMaxX gs v0 v1 v2 ∧
        rasterMinY gs v0 v1 v2 ≤ py ∧ py ≤ rasterMaxY gs v0 v1 v2 := by
  simp only [pixelList, List.mem_flatMap, List.mem_map, mem_intRange,
    Prod.mk.injEq]
  constructor
  · rintro ⟨y, hy, x, hx, rfl, rfl⟩
    exact ⟨hx.1, hx.2, hy.1, hy.2⟩
  · rintro ⟨h1, h2, h3, h4⟩
    exact ⟨py, ⟨h3, h4⟩, px, ⟨h1, h2⟩, rfl, rfl⟩

theorem processPixel_noDepth {gs : GPUState} {v0 v1 v2 : VertexData}
    {sample : ℚ → ℚ → ℕ} {px py : ℤ} {bufZ : ℕ}
    (hnd : (gs.depthTestEnabled && !gs.modeThrough || gs.modeClear) = false) :
    processPixel gs v0 v1 v2 sample px py bufZ =
      if coveredAt v0 v1 v2 px py then
        .drawn none
          (finalColor gs v0 v1 v2 sample
            (orient2d (v1.x, v1.y) (v2.x, v2.y) (px, py))
            (orient2d (v2.x, v2.y) (v0.x, v0.y) (px, py))
            (orient2d (v0.x, v0.y) (v1.x, v1.y) (px, py)))
      else .notCovered := by
  simp only [processPixel, coveredAt, hnd, Bool.false_eq_true, if_false]

theorem rasterStep_noDepth {gs : GPUState} {v0 v1 v2 : VertexData}
    {sample : ℚ → ℚ → ℕ}
    (hnd : (gs.depthTestEnabled && !gs.modeThrough || gs.modeClear) = false)
    (acc : FrameBuffers × List (ℤ × ℤ)) (p : ℤ × ℤ) :
    rasterStep gs v0 v1 v2 sample acc p =
      if coveredAt v0 v1 v2 p.1 p.2 then
        (⟨fun q => if q = p then
            finalColor gs v0 v1 v2 sample
              (orient2d (v1.x, v1.y) (v2.x, v2.y) (p.1, p.2))
              (orient2d (v2.x, v2.y) (v0.x, v0.y) (p.1, p.2))
              (orient2d (v0.x, v0.y) (v1.x, v1.y) (p.1, p.2))
          else acc.1.color q, acc.1.depth⟩,
         acc.2 ++ [p])
      else acc := by
  unfold rasterStep
  rw [processPixel_noDepth hnd]
  by_cases h : coveredAt v0 v1 v2 p.1 p.2
  · simp [h]
  · simp [h]

theorem foldl_noDepth (gs : GPUState) (v0 v1 v2 : VertexData)
    (sample : ℚ → ℚ → ℕ)
    (hnd : (gs.depthTestEnabled && !gs.modeThrough || gs.modeClear) = false) :
    ∀ (ps : List (ℤ × ℤ)) (acc : FrameBuffers × List (ℤ × ℤ)),
      (ps.foldl (rasterStep gs v0 v1 v2 sample) acc).2 =
          acc.2 ++ ps.filter (fun p => decide (coveredAt v0 v1 v2 p.1 p.2)) ∧
        (ps.foldl (rasterStep gs v0 v1 v2 sample) acc).1.depth =
          acc.1.depth := by
  intro ps
  induction ps with
  | nil => intro acc; simp
  | cons p ps ih =>
    intro acc
    rw [List.foldl_cons, List.filter_cons, rasterStep_noDepth hnd]
    by_cases h : coveredAt v0 v1 v2 p.1 p.2
    · obtain ⟨ih1, ih2⟩ :=
        ih (⟨fun q => if q = p then
            finalColor gs v0 v1 v2 sample
              (orient2d (v1.x, v1.y) (v2.x, v2.y) (p.1, p.2))
              (orient2d (v2.x, v2.y) (v0.x, v0.y) (p.1, p.2))
              (orient2d (v0.x, v0.y) (v1.x, v1.y) (p.1, p.2))
          else acc.1.color q, acc.1.depth⟩,
         acc.2 ++ [p])
      constructor
      · rw [if_pos h, ih1]
        simp [h]
      · rw [if_pos h, ih2]
    · obtain ⟨ih1, ih2⟩ := ih acc
      constructor
      · rw [if_neg h, ih1]
        simp [h]
      · rw [if_neg h, ih2]

theorem drawTriangle_trace {gs : GPUState} {v0 v1 v2 : VertexData}
    {sample : ℚ → ℚ → ℕ} {fb : FrameBuffers}
    (hnd : (gs.depthTestEnabled && !gs.modeThrough || gs.modeClear) = false) :
    (drawTriangle gs v0 v1 v2 sample fb).2 =
      (pixelList gs v0 v1 v2).filter
        (fun p => decide (coveredAt v0 v1 v2 p.1 p.2)) := by
  unfold drawTriangle
  have h :=
    (foldl_noDepth gs v0 v1 v2 sample hnd (pixelList gs v0 v1 v2) (fb, [])).1
  simpa using h

/-- A texture sampler that returns 0 everywhere, for concrete instances. -/
def sampleZero : ℚ → ℚ → ℕ := fun _ _ => 0

/-- All-zero framebuffers, for concrete instances. -/
def fbZero : FrameBuffers := ⟨fun _ => 0, fun _ => 0⟩

/-- Concrete state for the containment test: scissor (0,0)-(20,20), no depth
test, no clear mode, flat shading, no texture. -/
def gsC6 : GPUState :=
  ⟨false, false, false, false, false, .always, false, false, 0, 0, 20, 20⟩

/-- Vertex (0,0) of the containment-test triangle. -/
def vA : VertexData := ⟨0, 0, 0, 1, 0, 0, 255, 0, 0, 0⟩

/-- Vertex (10,0) of the containment-test triangle. -/
def vB : VertexData := ⟨10, 0, 0, 1, 0, 0, 0, 255, 0, 0⟩

/-- Vertex (0,10) of the containment-test triangle. -/
def vC : VertexData := ⟨0, 10, 0, 1, 0, 0, 0, 0, 255, 0⟩

/-- Concrete state with texture mapping enabled, clear mode off, flat
shading, and depth testing not applying. -/
def gsC1 : GPUState :=
  ⟨false, false, false, false, false, .always, false, true, 0, 0, 20, 20⟩

/-- A flat red vertex at (0,0) with clip-space w = 1. -/
def vF : VertexData := ⟨0, 0, 0, 1, 0, 0, 255, 0, 0, 0⟩

/-- Concrete state for the depth-test witness: depth test enabled with the
LESS function, through and clear modes off, depth write enabled. -/
def gsW5 : GPUState :=
  ⟨false, false, true, true, false, .less, false, false, 0, 0, 0, 0⟩

/-- A degenerate vertex at (0,0) with zero attributes and w = 1. -/
def vW5 : VertexData := ⟨0, 0, 0, 1, 0, 0, 0, 0, 0, 0⟩

/-- C8: the per-pixel interpolation of DrawTriangle computes
(a0*w0/cw0 + a1*w1/cw1 + a2*w2/cw2) / den with den = w0/cw0 + w1/cw1 +
w2/cw2 (the code builds den as 1/cw_i times w_i, which is the same value),
and with all three clip-space w equal to 1 it reduces to the plain
barycentric average (a0*w0 + a1*w1 + a2*w2) / (w0 + w1 + w2).  The rasterizer
applies `interpolate` to depth, both texture coordinates and every Gouraud
color channel (pixelZ, sCoord, tCoord, gouraudColor). -/
theorem perspective_interp_correct :
    (∀ (a0 a1 a2 : ℚ) (w0 w1 w2 : ℤ) (c0 c1 c2 : ℚ),
        interpolate a0 a1 a2 w0 w1 w2 c0 c1 c2 =
          (a0 * (w0 : ℚ) / c0 + a1 * (w1 : ℚ) / c1 + a2 * (w2 : ℚ) / c2) /
            ((w0 : ℚ) / c0 + (w1 : ℚ) / c1 + (w2 : ℚ) / c2)) ∧
    (∀ (a0 a1 a2 : ℚ) (w0 w1 w2 : ℤ),
        interpolate a0 a1 a2 w0 w1 w2 1 1 1 =
          (a0 * (w0 : ℚ) + a1 * (w1 : ℚ) + a2 * (w2 : ℚ)) /
            ((w0 : ℚ) + (w1 : ℚ) + (w2 : ℚ))) := by
  constructor
  · intro a0 a1 a2 w0 w1 w2 c0 c1 c2
    unfold interpolate perspDen
    congr 1
    ring
  · intro a0 a1 a2 w0 w1 w2
    unfold interpolate perspDen
    norm_num

/-- C5: `depthTestPassed` matches the eight-function table exactly (NEVER
always fails, ALWAYS always passes, EQUAL iff z = ref, NOTEQUAL iff z ≠ ref,
LESS iff z < ref, LEQUAL iff z ≤ ref, GREATER iff z > ref, GEQUAL iff
z ≥ ref), passes unconditionally in clear mode; in DrawTriangle a failed
test skips the pixel entirely (rasterStep leaves buffers and trace
untouched), and a passed test renders the pixel with a depth write exactly
when depth-write is enabled or the clear-mode depth-write bit is set. -/
theorem depth_test_semantics :
    (∀ (f : GeComparison) (z r : ℕ), depthTestPassed true f z r = true) ∧
    (∀ z r : ℕ, depthTestPassed false .never z r = false) ∧
    (∀ z r : ℕ, depthTestPassed false .always z r = true) ∧
    (∀ z r : ℕ, depthTestPassed false .equal z r = true ↔ z = r) ∧
    (∀ z r : ℕ, depthTestPassed false .notequal z r = true ↔ z ≠ r) ∧
    (∀ z r : ℕ, depthTestPassed false .less z r = true ↔ z < r) ∧
    (∀ z r : ℕ, depthTestPassed false .lequal z r = true ↔ z ≤ r) ∧
    (∀ z r : ℕ, depthTestPassed false .greater z r = true ↔ z > r) ∧
    (∀ z r : ℕ, depthTestPassed false .gequal z r = true ↔ z ≥ r) ∧
    (∀ (gs : GPUState) (v0 v1 v2 : VertexData) (sample : ℚ → ℚ → ℕ)
        (acc : FrameBuffers × List (ℤ × ℤ)) (p : ℤ × ℤ),
        processPixel gs v0 v1 v2 sample p.1 p.2 (acc.1.depth p) =
            .depthRejected →
        rasterStep gs v0 v1 v2 sample acc p = acc) ∧
    (∀ (gs : GPUState) (v0 v1 v2 : VertexData) (sample : ℚ → ℚ → ℕ)
        (px py : ℤ) (bufZ : ℕ),
        0 ≤ orient2d (v1.x, v1.y) (v2.x, v2.y) (px, py) →
        0 ≤ orient2d (v2.x, v2.y) (v0.x, v0.y) (px, py) →
        0 ≤ orient2d (v0.x, v0.y) (v1.x, v1.y) (px, py) →
        (gs.depthTestEnabled && !gs.modeThrough || gs.modeClear) = true →
        (depthTestPassed gs.modeClear gs.depthTestFunc
              (pixelZ v0 v1 v2
                (orient2d (v1.x, v1.y) (v2.x, v2.y) (px, py))
                (orient2d (v2.x, v2.y) (v0.x, v0.y) (px, py))
                (orient2d (v0.x, v0.y) (v1.x, v1.y) (px, py))) bufZ = false →
            processPixel gs v0 v1 v2 sample px py bufZ = .depthRejected) ∧
        (depthTestPassed gs.modeClear gs.depthTestFunc
              (pixelZ v0 v1 v2
                (orient2d (v1.x, v1.y) (v2.x, v2.y) (px, py))
                (orient2d (v2.x, v2.y) (v0.x, v0.y) (px, py))
                (orient2d (v0.x, v0.y) (v1.x, v1.y) (px, py))) bufZ = true →
            processPixel gs v0 v1 v2 sample px py bufZ =
              .drawn
                (if gs.depthWriteEnabled || gs.clearModeDepthWriteBit then
                  some (pixelZ v0 v1 v2
                    (orient2d (v1.x, v1.y) (v2.x, v2.y) (px, py))
                    (orient2d (v2.x, v2.y) (v0.x, v0.y) (px, py))
                    (orient2d (v0.x, v0.y) (v1.x, v1.y) (px, py)))
                 else none)
                (finalColor gs v0 v1 v2 sample
                  (orient2d (v1.x, v1.y) (v2.x, v2.y) (px, py))
                  (orient2d (v2.x, v2.y) (v0.x, v0.y) (px, py))
                  (orient2d (v0.x, v0.y) (v1.x, v1.y) (px, py))))) := by
  refine ⟨?_, ?_, ?_, ?_, ?_, ?_, ?_, ?_, ?_, ?_, ?_⟩
  · intro f z r; simp [depthTestPassed]
  · intro z r; simp [depthTestPassed]
  · intro z r; simp [depthTestPassed]
  · intro z r; simp [depthTestPassed]
  · intro z r; simp [depthTestPassed]
  · intro z r; simp [depthTestPassed]
  · intro z r; simp [depthTestPassed]
  · intro z r; simp [depthTestPassed]
  · intro z r; simp [depthTestPassed]
  · intro gs v0 v1 v2 sample acc p h
    unfold rasterStep
    rw [h]
  · intro gs v0 v1 v2 sample px py bufZ h0 h1 h2 happ
    constructor
    · intro hfail
      simp [processPixel, h0, h1, h2, happ, hfail]
    · intro hpass
      simp [processPixel, h0, h1, h2, happ, hpass]

/-- Witness for C5: a concrete covered pixel with the LESS function and
equal depths fails the test and is skipped. -/
theorem depth_test_semantics_witness :
    processPixel gsW5 vW5 vW5 vW5 sampleZero 0 0 0 = .depthRejected := by
  have h := depth_test_semantics
  exact (h.2.2.2.2.2.2.2.2.2.2 gsW5 vW5 vW5 vW5 sampleZero 0 0 0 (by decide)
    (by decide) (by decide) (by decide)).1 (by decide)

/-- Counterexample for C1: with texture mapping enabled, clear mode off and
a texture sample of 0 everywhere, a covered pixel with flat base color 255
is written as 255, not as the texture sample 0 — the sample does not
overwrite the base color. -/
theorem texture_combine_counterexample :
    gsC1.textureMapEnabled = true ∧ gsC1.modeClear = false ∧
      sampleZero (sCoord vF vF vF 0 0 0) (tCoord vF vF vF 0 0 0) = 0 ∧
      processPixel gsC1 vF vF vF sampleZero 0 0 0 = .drawn none 255 ∧
      (255 : ℕ) ≠ 0 := by
  decide

/-- C1 (amended): when texture mapping is enabled and clear mode is off, the
texture sample at mip level 0 is combined with the base color by bitwise OR
(`color |= SampleNearest(0, s, t)`), and that OR result is the color written
to the framebuffer at the pixel. -/
theorem texture_or_combine :
    (∀ (gs : GPUState) (v0 v1 v2 : VertexData) (sample : ℚ → ℚ → ℕ)
        (w0 w1 w2 : ℤ),
        gs.textureMapEnabled = true → gs.modeClear = false →
        finalColor gs v0 v1 v2 sample w0 w1 w2 =
          baseColor gs v0 v1 v2 w0 w1 w2 |||
            sample (sCoord v0 v1 v2 w0 w1 w2) (tCoord v0 v1 v2 w0 w1 w2)) ∧
    (∀ (gs : GPUState) (v0 v1 v2 : VertexData) (sample : ℚ → ℚ → ℕ)
        (acc : FrameBuffers × List (ℤ × ℤ)) (p : ℤ × ℤ) (dw : Option ℕ)
        (c : ℕ),
        processPixel gs v0 v1 v2 sample p.1 p.2 (acc.1.depth p) =
            .drawn dw c →
        (rasterStep gs v0 v1 v2 sample acc p).1.color p = c ∧
          (rasterStep gs v0 v1 v2 sample acc p).2 = acc.2 ++ [p]) ∧
    (∀ (gs : GPUState) (v0 v1 v2 : VertexData) (sample : ℚ → ℚ → ℕ)
        (px py : ℤ) (bufZ : ℕ) (dw : Option ℕ) (c : ℕ),
        gs.textureMapEnabled = true → gs.modeClear = false →
        processPixel gs v0 v1 v2 sample px py bufZ = .drawn dw c →
        c = baseColor gs v0 v1 v2
              (orient2d (v1.x, v1.y) (v2.x, v2.y) (px, py))
              (orient2d (v2.x, v2.y) (v0.x, v0.y) (px, py))
              (orient2d (v0.x, v0.y) (v1.x, v1.y) (px, py)) |||
            sample
              (sCoord v0 v1 v2
                (orient2d (v1.x, v1.y) (v2.x, v2.y) (px, py))
                (orient2d (v2.x, v2.y) (v0.x, v0.y) (px, py))
                (orient2d (v0.x, v0.y) (v1.x, v1.y) (px, py)))
              (tCoord v0 v1 v2
                (orient2d (v1.x, v1.y) (v2.x, v2.y) (px, py))
                (orient2d (v2.x, v2.y) (v0.x, v0.y) (px, py))
                (orient2d (v0.x, v0.y) (v1.x, v1.y) (px, py)))) := by
  have hA : ∀ (gs : GPUState) (v0 v1 v2 : VertexData) (sample : ℚ → ℚ → ℕ)
      (w0 w1 w2 : ℤ),
      gs.textureMapEnabled = true → gs.modeClear = false →
      finalColor gs v0 v1 v2 sample w0 w1 w2 =
        baseColor gs v0 v1 v2 w0 w1 w2 |||
          sample (sCoord v0 v1 v2 w0 w1 w2) (tCoord v0 v1 v2 w0 w1 w2) := by
    intro gs v0 v1 v2 sample w0 w1 w2 htex hclear
    simp [finalColor, htex, hclear]
  refine ⟨hA, ?_, ?_⟩
  · intro gs v0 v1 v2 sample acc p dw c h
    unfold rasterStep
    rw [h]
    constructor
    · simp
    · rfl
  · intro gs v0 v1 v2 sample px py bufZ dw c htex hclear h
    have hc : c = finalColor gs v0 v1 v2 sample
        (orient2d (v1.x, v1.y) (v2.x, v2.y) (px, py))
        (orient2d (v2.x, v2.y) (v0.x, v0.y) (px, py))
        (orient2d (v0.x, v0.y) (v1.x, v1.y) (px, py)) := by
      simp only [processPixel] at h
      split_ifs at h
      all_goals injection h with hdw hco
      all_goals exact hco.symm
    rw [hc, hA gs v0 v1 v2 sample _ _ _ htex hclear]

/-- Witness for the amended C1 at a concrete input. -/
theorem texture_or_combine_witness :
    finalColor gsC1 vF vF vF sampleZero 0 0 0 =
      baseColor gsC1 vF vF vF 0 0 0 |||
        sampleZero (sCoord vF vF vF 0 0 0) (tCoord vF vF vF 0 0 0) :=
  texture_or_combine.1 gsC1 vF vF vF sampleZero 0 0 0 rfl rfl

/-- C2: on the 5-5-5-1 texel with bytes (0x00, 0x7C), whose 5-bit blue field
is 31, the code returns 0x00000000 while the 5-5-5-1 unpack rule of the spec
yields 0x0000FF00 — the blue channel is read from `*srcptr+1` (the first
byte plus one) instead of the second byte. -/
theorem sample5551_blue_bug :
    sampleNearest5551 0 124 = 0 ∧ sampleNearest5551Spec 0 124 = 65280 ∧
      sampleNearest5551 0 124 ≠ sampleNearest5551Spec 0 124 := by
  decide

/-- C6: with depth testing not applying, DrawTriangle writes a color to
exactly the integer pixels inside the intersection of the triangle's
bounding box and the scissor rectangle at which all three edge functions
are nonnegative (inclusive edges, no tie-break); for the triangle
(0,0),(10,0),(0,10) with scissor (0,0)-(20,20), pixels (0,0) and (1,1) are
written and (10,10) is not. -/
theorem rasterizer_containment :
    (∀ (gs : GPUState) (v0 v1 v2 : VertexData) (sample : ℚ → ℚ → ℕ)
        (fb : FrameBuffers) (px py : ℤ),
        (gs.depthTestEnabled && !gs.modeThrough || gs.modeClear) = false →
        ((px, py) ∈ (drawTriangle gs v0 v1 v2 sample fb).2 ↔
          (rasterMinX gs v0 v1 v2 ≤ px ∧ px ≤ rasterMaxX gs v0 v1 v2 ∧
              rasterMinY gs v0 v1 v2 ≤ py ∧ py ≤ rasterMaxY gs v0 v1 v2) ∧
            coveredAt v0 v1 v2 px py)) ∧
    ((0, 0) ∈ (drawTriangle gsC6 vA vB vC sampleZero fbZero).2 ∧
      (1, 1) ∈ (drawTriangle gsC6 vA vB vC sampleZero fbZero).2 ∧
      (10, 10) ∉ (drawTriangle gsC6 vA vB vC sampleZero fbZero).2) := by
  have hgen : ∀ (gs : GPUState) (v0 v1 v2 : VertexData) (sample : ℚ → ℚ → ℕ)
      (fb : FrameBuffers) (px py : ℤ),
      (gs.depthTestEnabled && !gs.modeThrough || gs.modeClear) = false →
      ((px, py) ∈ (drawTriangle gs v0 v1 v2 sample fb).2 ↔
        (rasterMinX gs v0 v1 v2 ≤ px ∧ px ≤ rasterMaxX gs v0 v1 v2 ∧
            rasterMinY gs v0 v1 v2 ≤ py ∧ py ≤ rasterMaxY gs v0 v1 v2) ∧
          coveredAt v0 v1 v2 px py) := by
    intro gs v0 v1 v2 sample fb px py hnd
    rw [drawTriangle_trace hnd, List.mem_filter, mem_pixelList]
    simp
  refine ⟨hgen, ?_, ?_, ?_⟩
  · exact (hgen gsC6 vA vB vC sampleZero fbZero 0 0 rfl).mpr (by decide)
  · exact (hgen gsC6 vA vB vC sampleZero fbZero 1 1 rfl).mpr (by decide)
  · intro hmem
    exact absurd ((hgen gsC6 vA vB vC sampleZero fbZero 10 10 rfl).mp hmem)
      (by decide)

/-- Witness for C6 at the interior pixel (2,3). -/
theorem rasterizer_containment_witness :
    ((2 : ℤ), (3 : ℤ)) ∈ (drawTriangle gsC6 vA vB vC sampleZero fbZero).2 :=
  (rasterizer_containment.1 gsC6 vA vB vC sampleZero fbZero 2 3 rfl).mpr
    (by decide)

end Rasterizer

namespace DrawEngine

/-- A deferred call whose stored index range was produced by scanning its
index data, as Submit does via GetIndexBounds. -/
def boundsFromScan (c : DeferredDrawCall) : Prop :=
  c.inds.isSome = true ∧
    getIndexBounds (c.inds.getD []) c.vertexCount =
      (c.indexLowerBound, c.indexUpperBound)

instance (c : DeferredDrawCall) : Decidable (boundsFromScan c) := by
  unfold boundsFromScan; infer_instance

theorem foldl_min_le_init (l : List ℤ) (a : ℤ) : l.foldl min a ≤ a := by
  induction l generalizing a with
  | nil => exact le_refl a
  | cons x xs ih => exact le_trans (ih (min a x)) (min_le_left a x)

theorem foldl_min_le_mem (l : List ℤ) :
    ∀ (a : ℤ) {x : ℤ}, x ∈ l → l.foldl min a ≤ x := by
  induction l with
  | nil => intro a x hx; cases hx
  | cons y ys ih =>
    intro a x hx
    rcases List.mem_cons.mp hx with rfl | hmem
    · exact le_trans (foldl_min_le_init ys (min a x)) (min_le_right a x)
    · exact ih (min a y) hmem

theorem le_foldl_max_init (l : List ℤ) (a : ℤ) : a ≤ l.foldl max a := by
  induction l generalizing a with
  | nil => exact le_refl a
  | cons x xs ih => exact le_trans (le_max_left a x) (ih (max a x))

theorem le_foldl_max_mem (l : List ℤ) :
    ∀ (a : ℤ) {x : ℤ}, x ∈ l → x ≤ l.foldl max a := by
  induction l with
  | nil => intro a x hx; cases hx
  | cons y ys ih =>
    intro a x hx
    rcases List.mem_cons.mp hx with rfl | hmem
    · exact le_trans (le_max_right a x) (le_foldl_max_init ys (max a x))
    · exact ih (max a y) hmem

theorem foldl_min_attained (l : List ℤ) (a : ℤ) :
    l.foldl min a = a ∨ l.foldl min a ∈ l := by
  induction l generalizing a with
  | nil => exact Or.inl rfl
  | cons x xs ih =>
    rcases ih (min a x) with h | h
    · rcases le_total a x with hax | hxa
      · rw [List.foldl_cons, h, min_eq_left hax]
        exact Or.inl rfl
      · rw [List.foldl_cons, h, min_eq_right hxa]
        exact Or.inr (List.mem_cons_self x xs)
    · exact Or.inr (List.mem_cons_of_mem x h)

theorem foldl_max_attained (l : List ℤ) (a : ℤ) :
    l.foldl max a = a ∨ l.foldl max a ∈ l := by
  induction l generalizing a with
  | nil => exact Or.inl rfl
  | cons x xs ih =>
    rcases ih (max a x) with h | h
    · rcases le_total x a with hxa | hax
      · rw [List.foldl_cons, h, max_eq_left hxa]
        exact Or.inl rfl
      · rw [List.foldl_cons, h, max_eq_right hax]
        exact Or.inr (List.mem_cons_self x xs)
    · exact Or.inr (List.mem_cons_of_mem x h)

theorem getIndexBounds_le {l : List ℕ} {n : ℕ} {idx : ℕ}
    (h : idx ∈ l.take n) :
    (getIndexBounds l n).1 ≤ (idx : ℤ) ∧
      (idx : ℤ) ≤ (getIndexBounds l n).2 := by
  have hmem : (idx : ℤ) ∈ (l.take n).map (fun (i : ℕ) => (i : ℤ)) :=
    List.mem_map_of_mem _ h
  unfold getIndexBounds
  rcases hm : (l.take n).map (fun (i : ℕ) => (i : ℤ)) with _ | ⟨x, xs⟩
  · rw [hm] at hmem
    cases hmem
  · rw [hm] at hmem
    rcases List.mem_cons.mp hmem with heq | hmem2
    · rw [heq]
      exact ⟨foldl_min_le_init xs _, le_foldl_max_init xs _⟩
    · exact ⟨foldl_min_le_mem xs _ hmem2, le_foldl_max_mem xs _ hmem2⟩

theorem mergedLower_le {st : EngineState} {dc c : DeferredDrawCall}
    (hc : c ∈ mergeRun st dc) :
    mergedLower st dc ≤ c.indexLowerBound ∧
      c.indexUpperBound ≤ mergedUpper st dc := by
  have hmin :
      mergedLower st dc =
        ((mergeExtra st dc).map (fun c => c.indexLowerBound)).foldl min
          dc.indexLowerBound := by
    rw [mergedLower, List.foldl_map]
  have hmax :
      mergedUpper st dc =
        ((mergeExtra st dc).map (fun c => c.indexUpperBound)).foldl max
          dc.indexUpperBound := by
    rw [mergedUpper, List.foldl_map]
  rcases List.mem_cons.mp hc with rfl | hmem
  · constructor
    · rw [hmin]; exact foldl_min_le_init _ _
    · rw [hmax]; exact le_foldl_max_init _ _
  · constructor
    · rw [hmin]
      exact foldl_min_le_mem _ _ (List.mem_map_of_mem _ hmem)
    · rw [hmax]
      exact le_foldl_max_mem _ _ (List.mem_map_of_mem _ hmem)

theorem mergedLower_attained (st : EngineState) (dc : DeferredDrawCall) :
    (∃ c ∈ mergeRun st dc, c.indexLowerBound = mergedLower st dc) ∧
      (∃ c ∈ mergeRun st dc, c.indexUpperBound = mergedUpper st dc) := by
  have hmin :
      mergedLower st dc =
        ((mergeExtra st dc).map (fun c => c.indexLowerBound)).foldl min
          dc.indexLowerBound := by
    rw [mergedLower, List.foldl_map]
  have hmax :
      mergedUpper st dc =
        ((mergeExtra st dc).map (fun c => c.indexUpperBound)).foldl max
          dc.indexUpperBound := by
    rw [mergedUpper, List.foldl_map]
  constructor
  · rcases foldl_min_attained
        ((mergeExtra st dc).map (fun c => c.indexLowerBound))
        dc.indexLowerBound with h | h
    · exact ⟨dc, List.mem_cons_self dc _, by rw [hmin, h]⟩
    · rcases List.mem_map.mp h with ⟨c, hcmem, hceq⟩
      exact ⟨c, List.mem_cons_of_mem dc hcmem, by rw [hmin, hceq]⟩
  · rcases foldl_max_attained
        ((mergeExtra st dc).map (fun c => c.indexUpperBound))
        dc.indexUpperBound with h | h
    · exact ⟨dc, List.mem_cons_self dc _, by rw [hmax, h]⟩
    · rcases List.mem_map.mp h with ⟨c, hcmem, hceq⟩
      exact ⟨c, List.mem_cons_of_mem dc hcmem, by rw [hmax, hceq]⟩

theorem decodeVertsStep_drawCalls (st : EngineState) :
    (decodeVertsStep st).drawCalls = st.drawCalls := by
  cases hget : st.drawCalls[st.decodeCounter]? with
  | none => simp [decodeVertsStep, hget]
  | some dc =>
    simp only [decodeVertsStep, hget]
    split_ifs <;> rfl

theorem decodeVertsStep_vcid (st : EngineState) :
    (decodeVertsStep st).vertexCountInDrawCalls =
      st.vertexCountInDrawCalls := by
  cases hget : st.drawCalls[st.decodeCounter]? with
  | none => simp [decodeVertsStep, hget]
  | some dc =>
    simp only [decodeVertsStep, hget]
    split_ifs <;> rfl

/-- Concrete deferred calls for the decode witnesses: dcA and dcB share the
verts reference 1, dcC uses a different one. -/
def dcA : DeferredDrawCall := ⟨1, some [2, 5], 0, 1, 3, 2, 2, 5⟩

/-- Second call of the witness run, same verts reference as dcA. -/
def dcB : DeferredDrawCall := ⟨1, some [4, 7], 0, 1, 3, 2, 4, 7⟩

/-- A following call with a different verts reference, ending the run. -/
def dcC : DeferredDrawCall := ⟨2, some [0], 0, 1, 3, 1, 0, 0⟩

/-- Decode state at cursor 0 over the three witness calls. -/
def stW4 : EngineState := ⟨[dcA, dcB, dcC], 5, some 3, 0, 0, []⟩

/-- Decode state whose decoded-vertex counter is already at capacity. -/
def stW7 : EngineState := ⟨[dcA, dcB, dcC], 5, some 3, 0, 65536, []⟩

/-- A placeholder deferred call. -/
def dcDummy : DeferredDrawCall := ⟨0, none, 0, 0, 0, 0, 0, 0⟩

/-- An engine state whose deferred-call list is at capacity and whose
vertex counter is 5. -/
def stC9 : EngineState := ⟨List.replicate 128 dcDummy, 5, some 3, 0, 0, []⟩

/-- C4: for an indexed call whose bounds (and those of its merged run) come
from scanning their index data, and absent overflow, DecodeVertsStep merges
exactly the maximal block of consecutive following calls sharing the verts
reference (mergeExtra stops at the first differing one), advances the
decoded-vertex count by max upper − min lower + 1 across the run (the
merged bounds are attained lower/upper bounds over the run), hands the index
generator exactly the run's raw indices offset by the merged lower bound,
each translated index lying in [0, decodedCount − 1], and moves the decode
cursor to the last merged call. -/
theorem index_merge_correct :
    ∀ (st : EngineState) (dc : DeferredDrawCall),
      st.drawCalls[st.decodeCounter]? = some dc →
      (dc.indexType = 1 ∨ dc.indexType = 2) →
      (∀ c ∈ mergeRun st dc, boundsFromScan c) →
      st.decodedVerts + (mergedUpper st dc - mergedLower st dc + 1) ≤
        (vertexBufferMax : ℤ) →
      (decodeVertsStep st).decodedVerts =
          st.decodedVerts + (mergedUpper st dc - mergedLower st dc + 1) ∧
        (decodeVertsStep st).decodeCounter =
          st.decodeCounter + (mergeExtra st dc).length ∧
        (decodeVertsStep st).translatedIndices =
          st.translatedIndices ++ translatedRun st dc ∧
        (∀ c ∈ mergeRun st dc,
            mergedLower st dc ≤ c.indexLowerBound ∧
              c.indexUpperBound ≤ mergedUpper st dc) ∧
        (∃ c ∈ mergeRun st dc, c.indexLowerBound = mergedLower st dc) ∧
        (∃ c ∈ mergeRun st dc, c.indexUpperBound = mergedUpper st dc) ∧
        ∀ t ∈ translatedRun st dc,
          0 ≤ t ∧ t ≤ mergedUpper st dc - mergedLower st dc := by
  intro st dc hget htype hbounds hof
  have hne : dc.indexType ≠ 0 := by
    rcases htype with h | h <;> omega
  have hstep : decodeVertsStep st =
      { st with
        translatedIndices := st.translatedIndices ++ translatedRun st dc,
        decodedVerts :=
          st.decodedVerts + (mergedUpper st dc - mergedLower st dc + 1),
        decodeCounter := st.decodeCounter + (mergeExtra st dc).length } := by
    simp only [decodeVertsStep, hget]
    rw [if_neg hne, if_neg (not_lt.mpr hof), if_pos htype]
  refine ⟨by rw [hstep], by rw [hstep], by rw [hstep],
    fun c hc => mergedLower_le hc, (mergedLower_attained st dc).1,
    (mergedLower_attained st dc).2, ?_⟩
  intro t ht
  unfold translatedRun at ht
  rcases List.mem_flatMap.mp ht with ⟨c, hcmem, hidx⟩
  rcases List.mem_map.mp hidx with ⟨idx, hidxmem, rfl⟩
  obtain ⟨hsome, hscan⟩ := hbounds c hcmem
  have hle := getIndexBounds_le
    (l := c.inds.getD []) (n := c.vertexCount) hidxmem
  rw [hscan] at hle
  obtain ⟨hlow, hup⟩ := hle
  obtain ⟨hml, hmu⟩ := mergedLower_le hcmem
  constructor <;> simp_all <;> omega

/-- Witness for C4: the two calls sharing verts reference 1 merge into bounds
[2,7], the counter advances by 6, the cursor lands on the second call, and
the translated indices are the raw ones minus 2. -/
theorem index_merge_correct_witness :
    (decodeVertsStep stW4).decodedVerts = 6 ∧
      (decodeVertsStep stW4).decodeCounter = 1 ∧
      (decodeVertsStep stW4).translatedIndices =
        [0, 3, 2, 5] := by
  have h := index_merge_correct stW4 dcA (by decide) (Or.inl rfl) (by decide)
    (by decide)
  refine ⟨?_, ?_, ?_⟩
  · rw [h.1]; decide
  · rw [h.2.1]; decide
  · rw [h.2.2.1]; decide

/-- C7: in the indexed path, when decoding the merged range would push the
decoded-vertex counter past the buffer capacity, the step leaves the counter
and the cursor unchanged (the range is dropped); consequently a counter
within capacity stays within capacity after any indexed step. -/
theorem decode_overflow_guard :
    ∀ (st : EngineState) (dc : DeferredDrawCall),
      st.drawCalls[st.decodeCounter]? = some dc →
      dc.indexType ≠ 0 →
      ((vertexBufferMax : ℤ) <
          st.decodedVerts + (mergedUpper st dc - mergedLower st dc + 1) →
        (decodeVertsStep st).decodedVerts = st.decodedVerts ∧
          (decodeVertsStep st).decodeCounter = st.decodeCounter) ∧
      (st.decodedVerts ≤ (vertexBufferMax : ℤ) →
        (decodeVertsStep st).decodedVerts ≤ (vertexBufferMax : ℤ)) := by
  intro st dc hget hne
  constructor
  · intro hovf
    simp only [decodeVertsStep, hget]
    rw [if_neg hne, if_pos hovf]
    exact ⟨rfl, rfl⟩
  · intro hle
    by_cases hovf : (vertexBufferMax : ℤ) <
        st.decodedVerts + (mergedUpper st dc - mergedLower st dc + 1)
    · simp only [decodeVertsStep, hget]
      rw [if_neg hne, if_pos hovf]
      exact hle
    · simp only [decodeVertsStep, hget]
      rw [if_neg hne, if_neg hovf]
      show st.decodedVerts + (mergedUpper st dc - mergedLower st dc + 1) ≤ _
      omega

/-- Witness for C7: with the counter already at 65536, the indexed step over
the merged range [2,7] drops the range and leaves counter and cursor. -/
theorem decode_overflow_guard_witness :
    (decodeVertsStep stW7).decodedVerts = 65536 ∧
      (decodeVertsStep stW7).decodeCounter = 0 := by
  have h := (decode_overflow_guard stW7 dcA (by decide) (by decide)).1
    (by decide)
  exact ⟨by rw [h.1]; decide, by rw [h.2]; decide⟩

theorem entryState_cases (pc : Option ℕ → ℕ → Bool) (st : EngineState)
    (p0 n : ℕ) :
    entryState pc st p0 n = initState ∨
      (entryState pc st p0 n = st ∧
        st.drawCalls.length < maxDeferredDrawCalls ∧
        st.vertexCountInDrawCalls + n ≤ vertexBufferMax) := by
  unfold entryState
  by_cases hE : entryFlushNeeded pc st p0 n = true
  · rw [if_pos hE]
    exact Or.inl rfl
  · rw [if_neg hE]
    simp only [entryFlushNeeded, Bool.or_eq_true, Bool.not_eq_true,
      decide_eq_true_eq] at hE
    push_neg at hE
    exact Or.inr ⟨rfl, by omega, by omega⟩

theorem skinningStep_counters (sk : Bool) (vt : ℕ) (st3 : EngineState) :
    (skinningStep sk vt st3).drawCalls = st3.drawCalls ∧
      (skinningStep sk vt st3).vertexCountInDrawCalls =
        st3.vertexCountInDrawCalls := by
  unfold skinningStep
  split_ifs
  · exact ⟨decodeVertsStep_drawCalls st3, decodeVertsStep_vcid st3⟩
  · exact ⟨rfl, rfl⟩

theorem rectAliasFlush_capOK (prim ta fa : ℕ) (ds : Bool)
    (st4 : EngineState) (h : capOK st4) :
    capOK (rectAliasFlush prim ta fa ds st4) := by
  unfold rectAliasFlush
  split_ifs
  · simp [flushReset, initState, capOK]
  · exact h

theorem submit_capOK (pc : Option ℕ → ℕ → Bool) (vs : ℕ → ℕ) (uv : ℕ)
    (sk ds : Bool) (ta fa : ℕ) (st : EngineState) (vr : ℕ)
    (inds : Option (List ℕ)) (p0 n vt : ℕ)
    (hn : n ≤ vertexBufferMax) (h : capOK st) :
    capOK (submit pc vs uv sk ds ta fa st vr inds p0 n vt).1 := by
  have hmax : (1 : ℕ) ≤ maxDeferredDrawCalls := by decide
  have hcap1 : capOK (entryState pc st p0 n) ∧
      (entryState pc st p0 n).drawCalls.length + 1 ≤ maxDeferredDrawCalls ∧
      (entryState pc st p0 n).vertexCountInDrawCalls + n ≤
        vertexBufferMax := by
    rcases entryState_cases pc st p0 n with he | ⟨he, hlen, hvc⟩
    · rw [he]
      exact ⟨⟨by decide, by decide⟩, by simpa [initState] using hmax,
        by simpa [initState] using hn⟩
    · rw [he]
      exact ⟨h, by omega, hvc⟩
  obtain ⟨⟨hl1, hv1⟩, hl2, hv2⟩ := hcap1
  simp only [submit]
  split_ifs with hk hrej hrej
  · exact ⟨hl1, hv1⟩
  · refine rectAliasFlush_capOK _ ta fa ds _ ?_
    obtain ⟨hsl, hsv⟩ := skinningStep_counters sk vt
      (appendDrawCall (entryState pc st p0 n) vr inds vt
        ((entryState pc st p0 n).prevPrim.getD 0) n)
    constructor
    · rw [hsl]
      simpa [appendDrawCall] using hl2
    · rw [hsv]
      simpa [appendDrawCall] using hv2
  · exact ⟨hl1, hv1⟩
  · refine rectAliasFlush_capOK _ ta fa ds _ ?_
    obtain ⟨hsl, hsv⟩ := skinningStep_counters sk vt
      (appendDrawCall { entryState pc st p0 n with prevPrim := some p0 } vr
        inds vt p0 n)
    constructor
    · rw [hsl]
      simpa [appendDrawCall] using hl2
    · rw [hsv]
      simpa [appendDrawCall] using hv2

theorem submit_capOK_list (pc : Option ℕ → ℕ → Bool) (vs : ℕ → ℕ) (uv : ℕ)
    (sk ds : Bool) (ta fa : ℕ) :
    ∀ (args : List SubmitArgs) (st : EngineState), capOK st →
      (∀ a ∈ args, a.vertexCount ≤ vertexBufferMax) →
      capOK (args.foldl (submitStep pc vs uv sk ds ta fa) st) := by
  intro args
  induction args with
  | nil => intro st h _; simpa using h
  | cons a as ih =>
    intro st h hall
    rw [List.foldl_cons]
    exact ih _
      (submit_capOK pc vs uv sk ds ta fa st a.vertsRef a.inds a.prim0
        a.vertexCount a.vertType (hall a (List.mem_cons_self a as)) h)
      (fun b hb => hall b (List.mem_cons_of_mem a hb))

/-- C3 (amended): starting from the initial state, for every sequence of
Submit calls in which each call's vertexCount is at most VERTEX_BUFFER_MAX,
the batch counters satisfy acceptedDrawCalls ≤ MAX_DEFERRED_DRAW_CALLS and
totalVertexCount ≤ VERTEX_BUFFER_MAX after every prefix of the sequence —
the entry flush enforces both bounds for such calls.  (A single call with
vertexCount > VERTEX_BUFFER_MAX is accepted after the forced flush and
breaks the vertex bound; see the counterexample.) -/
theorem capacity_invariant :
    ∀ (pc : Option ℕ → ℕ → Bool) (vs : ℕ → ℕ) (uv : ℕ) (sk ds : Bool)
      (ta fa : ℕ) (args : List SubmitArgs),
      (∀ a ∈ args, a.vertexCount ≤ vertexBufferMax) →
      ∀ k, capOK ((args.take k).foldl (submitStep pc vs uv sk ds ta fa)
        initState) := by
  intro pc vs uv sk ds ta fa args hall k
  exact submit_capOK_list pc vs uv sk ds ta fa (args.take k) initState
    (by exact ⟨by decide, by decide⟩)
    (fun a ha => hall a (List.take_subset k args ha))

/-- Two point submissions for the capacity witness. -/
def argsW : List SubmitArgs := [⟨0, none, 0, 3, 0⟩, ⟨0, none, 0, 2, 0⟩]

/-- Witness for C3 on a concrete two-call sequence. -/
theorem capacity_invariant_witness :
    capOK ((argsW.take 2).foldl
      (submitStep (fun _ _ => true) (fun _ => 1) 0 false false 0 0)
      initState) :=
  capacity_invariant (fun _ _ => true) (fun _ => 1) 0 false false 0 0 argsW
    (by decide) 2

set_option maxRecDepth 4000 in
/-- Counterexample for C3: a single Submit of 65537 point vertices (vertex
count ≥ 0) is accepted after the forced flush, leaving totalVertexCount =
65537 > VERTEX_BUFFER_MAX — the claimed invariant fails without a per-call
bound on vertexCount. -/
theorem capacity_counterexample :
    (submit (fun _ _ => true) (fun _ => 1) 0 false false 0 0 initState 0 none
        0 65537 0).1.vertexCountInDrawCalls = 65537 ∧
      ¬capOK (submit (fun _ _ => true) (fun _ => 1) 0 false false 0 0
        initState 0 none 0 65537 0).1 := by
  decide

/-- C9 (amended): a submission below its primitive's minimum vertex count
(fewer than 2 for any non-point primitive, fewer than 3 for the polygon
family except rectangles, after resolving the keep-previous sentinel) is
rejected: no deferred call is appended and the counters are not advanced —
the final state is the post-entry-flush state with only prevPrim updated.
When the entry condition did not force a flush, acceptedDrawCalls and
totalVertexCount are exactly unchanged; a triggered entry flush, however,
resets both to zero before the rejection. -/
theorem reject_below_minimum :
    ∀ (pc : Option ℕ → ℕ → Bool) (vs : ℕ → ℕ) (uv : ℕ) (sk ds : Bool)
      (ta fa : ℕ) (st : EngineState) (vr : ℕ) (inds : Option (List ℕ))
      (p0 n vt : ℕ),
      (n < 2 ∧ 0 < resolvedPrim pc st p0 n) ∨
        (n < 3 ∧ 2 < resolvedPrim pc st p0 n ∧
          resolvedPrim pc st p0 n ≠ gePrimRectangles) →
      (submit pc vs uv sk ds ta fa st vr inds p0 n vt).1 =
          { entryState pc st p0 n with
            prevPrim :=
              if p0 = gePrimKeepPrevious then (entryState pc st p0 n).prevPrim
              else some p0 } ∧
        (entryFlushNeeded pc st p0 n = false →
          (submit pc vs uv sk ds ta fa st vr inds p0 n vt).1.drawCalls =
              st.drawCalls ∧
            ((submit pc vs uv sk ds ta fa st vr inds p0 n
              vt).1).vertexCountInDrawCalls = st.vertexCountInDrawCalls) := by
  intro pc vs uv sk ds ta fa st vr inds p0 n vt hR
  have h1 : (submit pc vs uv sk ds ta fa st vr inds p0 n vt).1 =
      { entryState pc st p0 n with
        prevPrim :=
          if p0 = gePrimKeepPrevious then (entryState pc st p0 n).prevPrim
          else some p0 } := by
    have hcond : (n < 2 ∧
        0 < (if p0 = gePrimKeepPrevious then
          (entryState pc st p0 n).prevPrim.getD 0 else p0)) ∨
        (n < 3 ∧
          2 < (if p0 = gePrimKeepPrevious then
            (entryState pc st p0 n).prevPrim.getD 0 else p0) ∧
          (if p0 = gePrimKeepPrevious then
            (entryState pc st p0 n).prevPrim.getD 0 else p0) ≠
            gePrimRectangles) := by
      simpa [resolvedPrim] using hR
    simp only [submit]
    rw [if_pos hcond]
    split_ifs with hk <;> rfl
  refine ⟨h1, fun hE => ?_⟩
  rw [h1]
  have hes : entryState pc st p0 n = st := by
    simp [entryState, hE]
  rw [hes]
  exact ⟨rfl, rfl⟩

/-- Witness for C9: a 1-vertex line submission on the initial state is
rejected with the counters untouched. -/
theorem reject_below_minimum_witness :
    (submit (fun _ _ => true) (fun _ => 1) 0 false false 0 0 initState 0 none
        1 1 0).1 = ⟨[], 0, some 1, 0, 0, []⟩ := by
  have h := reject_below_minimum (fun _ _ => true) (fun _ => 1) 0 false false
    0 0 initState 0 none 1 1 0 (Or.inl (by decide))
  rw [h.1]
  decide

set_option maxRecDepth 8000 in
/-- Counterexample for C9: with the deferred list at capacity, a 1-vertex
line submission is rejected, yet the entry flush has already reset both
counters — they are not left unchanged as the claim states. -/
theorem reject_counters_counterexample :
    (1 < 2 ∧ 0 < resolvedPrim (fun _ _ => true) stC9 1 1) ∧
      stC9.vertexCountInDrawCalls = 5 ∧
      (submit (fun _ _ => true) (fun _ => 1) 0 false false 0 0 stC9 0 none 1 1
          0).1.drawCalls = [] ∧
      (submit (fun _ _ => true) (fun _ => 1) 0 false false 0 0 stC9 0 none 1 1
          0).1.vertexCountInDrawCalls = 0 ∧
      (0 : ℕ) ≠ 5 := by
  decide

/-- C10: SubmitPrim stores vertexCount times the stride of the effective
vertex format (the raw format's low 24 bits with the UV-generation mode in
the top byte) through bytesRead on every call, accepted or rejected. -/
theorem bytesRead_always_set :
    ∀ (pc : Option ℕ → ℕ → Bool) (vs : ℕ → ℕ) (uv : ℕ) (sk ds : Bool)
      (ta fa : ℕ) (st : EngineState) (vr : ℕ) (inds : Option (List ℕ))
      (p0 n vt : ℕ),
      (submit pc vs uv sk ds ta fa st vr inds p0 n vt).2 =
        n * vs ((vt &&& 0xFFFFFF) ||| (uv <<< 24)) := by
  intro pc vs uv sk ds ta fa st vr inds p0 n vt
  simp only [submit]
  split_ifs <;> rfl

end DrawEngine
